import Mathlib

/-!
Shallow embedding of `commits-tilewall` (src/main.rs): a CLI tool that turns
git commit history into a contribution-calendar image.  Pure fragments of the
Rust code (theme tables, the intensity classifier, the aggregation folds, the
layout arithmetic, the argument scan) are translated into executable Lean
definitions; the theorems below settle the specification claims against them.

Machine integers (`i32`) are modelled as `Int`; the accumulations in the
program stay far from the `i32` range on any input a git log can produce, and
no claim concerns overflow.  External-library behaviour that the code relies
on (chrono's `NaiveDate::parse_from_str` with format `"%Y-%m-%d"`, Rust's
`str::parse::<i32>`, `str::split_whitespace`, `str::to_lowercase`) is modelled
faithfully for the inputs that matter here; the models are commented at their
definitions.
-/

namespace CommitsTilewall

/-- An RGBA colour, modelled as the 4-tuple of channel values of
`image::Rgba<u8>` (src/main.rs uses `Rgba([r, g, b, a])`). -/
abbrev Rgba := Nat × Nat × Nat × Nat

/-- The `Theme` struct (src/main.rs lines 10-17).  `commit_colors` is the
six-entry colour table `[no_commit, 1, 2-4, 5-9, 10-19, 20+]`. -/
structure Theme where
  background : Rgba
  text_primary : Rgba
  text_secondary : Rgba
  separator : Rgba
  commit_colors : List Rgba
deriving DecidableEq, Repr

/-- `Theme::dark()` (src/main.rs lines 20-35). -/
def Theme.dark : Theme :=
  { background := (30, 30, 30, 255)
    text_primary := (255, 255, 255, 255)
    text_secondary := (200, 200, 200, 255)
    separator := (70, 70, 70, 255)
    commit_colors :=
      [(50, 50, 50, 255), (40, 160, 40, 255), (60, 200, 60, 255),
       (80, 240, 80, 255), (120, 255, 120, 255), (160, 255, 160, 255)] }

/-- `Theme::light()` (src/main.rs lines 37-52). -/
def Theme.light : Theme :=
  { background := (255, 255, 255, 255)
    text_primary := (50, 50, 50, 255)
    text_secondary := (100, 100, 100, 255)
    separator := (220, 220, 220, 255)
    commit_colors :=
      [(240, 240, 240, 255), (140, 240, 140, 255), (100, 220, 100, 255),
       (60, 200, 60, 255), (40, 180, 40, 255), (20, 160, 20, 255)] }

/-- `Theme::github()` (src/main.rs lines 54-69). -/
def Theme.github : Theme :=
  { background := (255, 255, 255, 255)
    text_primary := (24, 23, 23, 255)
    text_secondary := (87, 96, 106, 255)
    separator := (235, 237, 240, 255)
    commit_colors :=
      [(235, 237, 240, 255), (155, 233, 168, 255), (100, 220, 123, 255),
       (64, 196, 99, 255), (48, 161, 78, 255), (33, 110, 57, 255)] }

/-- The bucket index chosen by the `match` in `get_commit_color`
(src/main.rs lines 93-100): `0 => 0, 1 => 1, 2..=4 => 2, 5..=9 => 3,
10..=19 => 4, _ => 5`.  The Rust `match` tests the arms in order, so the
guards below replay exactly that order. -/
def commitBucket (commit_count : Int) : Nat :=
  if commit_count = 0 then 0
  else if commit_count = 1 then 1
  else if 2 ≤ commit_count ∧ commit_count ≤ 4 then 2
  else if 5 ≤ commit_count ∧ commit_count ≤ 9 then 3
  else if 10 ≤ commit_count ∧ commit_count ≤ 19 then 4
  else 5

/-- `get_commit_color` (src/main.rs lines 91-101): indexes the theme's
`commit_colors` array with the bucket of the count.  Array indexing
`colors[i]` is total in Rust here because the array has six entries; `getD`
with an arbitrary default models it. -/
def get_commit_color (commit_count : Int) (theme : Theme) : Rgba :=
  if commit_count = 0 then theme.commit_colors.getD 0 (0, 0, 0, 0)
  else if commit_count = 1 then theme.commit_colors.getD 1 (0, 0, 0, 0)
  else if 2 ≤ commit_count ∧ commit_count ≤ 4 then theme.commit_colors.getD 2 (0, 0, 0, 0)
  else if 5 ≤ commit_count ∧ commit_count ≤ 9 then theme.commit_colors.getD 3 (0, 0, 0, 0)
  else if 10 ≤ commit_count ∧ commit_count ≤ 19 then theme.commit_colors.getD 4 (0, 0, 0, 0)
  else theme.commit_colors.getD 5 (0, 0, 0, 0)

/-- `days_in_month` (src/main.rs lines 294-308): the per-month day count used
by the renderer, with the Gregorian leap rule for February.  Rust's `%` on a
non-negative `i32` agrees with `Int.emod`; for negative years both
`year % 4 == 0` and `emod = 0` say exactly "divisible", so `emod` is a
faithful translation on every input. -/
def daysInMonth (year : Int) (month : Nat) : Nat :=
  match month with
  | 1 => 31
  | 2 => if year % 4 = 0 ∧ (year % 100 ≠ 0 ∨ year % 400 = 0) then 29 else 28
  | 3 => 31
  | 4 => 30
  | 5 => 31
  | 6 => 30
  | 7 => 31
  | 8 => 31
  | 9 => 30
  | 10 => 31
  | 11 => 30
  | 12 => 31
  | _ => 0

/-- Model of Rust's `str::to_lowercase` restricted to the ASCII mapping
(`Char.toLower`); the only comparisons made with the result are against the
ASCII literals `"dark"` and `"github"`. -/
def to_lowercase (s : String) : List Char := s.toList.map Char.toLower

/-- The theme dispatch at the top of `generate_commit_image`
(src/main.rs lines 134-138): `"dark"` and `"github"` select their themes,
anything else falls through to `Theme::light()`. -/
def selectTheme (theme_name : String) : Theme :=
  if to_lowercase theme_name = "dark".toList then Theme.dark
  else if to_lowercase theme_name = "github".toList then Theme.github
  else Theme.light

/-! Layout constants (src/main.rs lines 140-149). -/

def block_size : Nat := 10

def space_size : Nat := 2

def year_spacing : Nat := 20

def month_grid_width : Nat := 4

def month_grid_height : Nat := 8

def month_label_height : Nat := block_size * 2

def year_height : Nat := month_grid_height * (block_size + space_size) + month_label_height

def year_label_width : Nat := block_size * 5

def summary_width : Nat := block_size * 45

def month_spacing : Nat := space_size * 3

/-- `min_commits` (src/main.rs line 223). -/
def min_commits : Int := 5

/-- The active-year selector (src/main.rs lines 224-229): filter the
`year_commit_counts` map by `count >= min_commits`, keep the keys, and sort
descending (`sort_unstable_by(|a, b| b.cmp(a))`).  The `HashMap` is modelled
as an association list whose keys are assumed distinct where it matters;
its arbitrary iteration order is harmless because the result is sorted.
`insertionSort` with `≥` models the descending comparison sort (stability
is irrelevant on distinct keys). -/
def active_years (year_commit_counts : List (Int × Int)) : List Int :=
  List.insertionSort (fun a b => a ≥ b)
    ((year_commit_counts.filter (fun p => min_commits ≤ p.2)).map Prod.fst)

/-- The fixed image width (src/main.rs lines 245-248). -/
def width : Nat :=
  year_label_width + 12 * (month_grid_width * (block_size + space_size) + month_spacing) +
    summary_width + space_size * 4

/-- The image height for a given number of active years (src/main.rs line 249). -/
def image_height (years_count : Nat) : Nat := (year_height + year_spacing) * years_count

/-- The dimensions of the image returned by `generate_commit_image`
(src/main.rs lines 237-251): a 1×1 placeholder when `active_years` is empty,
otherwise `width × height`. -/
def image_dims (year_commit_counts : List (Int × Int)) : Nat × Nat :=
  if active_years year_commit_counts = [] then (1, 1)
  else (width, image_height (active_years year_commit_counts).length)

/-! Text parsing helpers: models of the Rust standard library and chrono
routines the aggregation loop calls. -/

/-- Numeric value of a digit string (most significant first). -/
def natOfDigits (cs : List Char) : Nat := cs.foldl (fun n c => n * 10 + (c.toNat - 48)) 0

/-- A non-empty all-digit string parsed to a `Nat`, otherwise `none`. -/
def digitsToNat (cs : List Char) : Option Nat :=
  if cs ≠ [] ∧ cs.all Char.isDigit then some (natOfDigits cs) else none

/-- Model of Rust's `str::parse::<i32>`: an optional `+`/`-` sign followed by
one or more ASCII digits, rejecting everything else and values outside the
`i32` range (`-2147483648 ..= 2147483647`). -/
def parse_i32 (s : String) : Option Int :=
  match s.toList with
  | '+' :: rest => (digitsToNat rest).bind fun n =>
      if n ≤ 2147483647 then some (n : Int) else none
  | '-' :: rest => (digitsToNat rest).bind fun n =>
      if n ≤ 2147483648 then some (-(n : Int)) else none
  | cs => (digitsToNat cs).bind fun n =>
      if n ≤ 2147483647 then some (n : Int) else none

/-- Helper for `split_whitespace`: scan the characters, `acc` holding the
current word reversed. -/
def splitWSAux : List Char → List Char → List (List Char)
  | [], acc => if acc = [] then [] else [acc.reverse]
  | c :: cs, acc =>
    if c.isWhitespace then
      if acc = [] then splitWSAux cs [] else acc.reverse :: splitWSAux cs []
    else splitWSAux cs (c :: acc)

/-- Model of Rust's `str::split_whitespace`: split on whitespace runs,
dropping empty fields. -/
def split_whitespace (s : String) : List String :=
  (splitWSAux s.toList []).map List.asString

/-- A calendar date, mirroring chrono's `NaiveDate` as used by the program
(only the year, month and day are ever read). -/
structure NaiveDate where
  year : Int
  month : Nat
  day : Nat
deriving DecidableEq, Repr

/-- Chrono `%Y` field: an optional sign followed by digits (at most four
when unsigned), returning the year and the unconsumed characters. -/
def parseYearField (cs : List Char) : Option (Int × List Char) :=
  match cs with
  | '-' :: rest =>
    if rest.takeWhile Char.isDigit = [] then none
    else some (-(natOfDigits (rest.takeWhile Char.isDigit) : Int), rest.dropWhile Char.isDigit)
  | '+' :: rest =>
    if rest.takeWhile Char.isDigit = [] then none
    else some ((natOfDigits (rest.takeWhile Char.isDigit) : Int), rest.dropWhile Char.isDigit)
  | _ =>
    if (cs.takeWhile Char.isDigit).take 4 = [] then none
    else some ((natOfDigits ((cs.takeWhile Char.isDigit).take 4) : Int),
               cs.drop ((cs.takeWhile Char.isDigit).take 4).length)

/-- Chrono `%m`/`%d` field: one or two digits, returning the value and the
unconsumed characters. -/
def parseNum2 (cs : List Char) : Option (Nat × List Char) :=
  if (cs.takeWhile Char.isDigit).take 2 = [] then none
  else some (natOfDigits ((cs.takeWhile Char.isDigit).take 2),
             cs.drop ((cs.takeWhile Char.isDigit).take 2).length)

/-- Model of chrono's `NaiveDate::parse_from_str(line, "%Y-%m-%d")` as called
on src/main.rs lines 172 and 194: numeric fields may be preceded by
whitespace, the two separators are literal dashes, the whole input must be
consumed, and the resulting (year, month, day) must name a real proleptic
Gregorian date (validated here with the same leap rule as `daysInMonth`,
which agrees with chrono's calendar; chrono's far-range year clamp at about
±262000 is irrelevant to every claim and is not modelled). -/
def parse_date (s : String) : Option NaiveDate :=
  match parseYearField (s.toList.dropWhile Char.isWhitespace) with
  | none => none
  | some (y, r1) =>
    match r1 with
    | '-' :: r2 =>
      match parseNum2 (r2.dropWhile Char.isWhitespace) with
      | none => none
      | some (m, r3) =>
        match r3 with
        | '-' :: r4 =>
          match parseNum2 (r4.dropWhile Char.isWhitespace) with
          | none => none
          | some (d, r5) =>
            if r5 = [] ∧ 1 ≤ m ∧ m ≤ 12 ∧ 1 ≤ d ∧ d ≤ daysInMonth y m then
              some ⟨y, m, d⟩
            else none
        | _ => none
    | _ => none

/-! The aggregation loops of `generate_commit_image` (src/main.rs
lines 155-220).  The `HashMap`s are modelled as total functions with 0 as
the absent value: an entry is created only by a `+= 1` (for counts) or a
stat accumulation, so "key absent" and "value 0" coincide, and equality of
contents is equality of functions. -/

/-- The dates collected from one date-per-line log (src/main.rs
lines 170-175): lines that parse with `"%Y-%m-%d"` are kept, all others are
silently skipped. -/
def dates_of_log (lines : List String) : List NaiveDate := lines.filterMap parse_date

/-- `commit_count_per_day` (src/main.rs lines 211-214) built from the
concatenation of all repositories' date logs (lines 158-175): the number of
occurrences of each date. -/
def daily_index (repo_logs : List (List String)) : NaiveDate → Nat :=
  fun d => (dates_of_log repo_logs.flatten).count d

/-- `year_commit_counts` (src/main.rs lines 217-220): per-year totals of the
daily counts, i.e. the number of parsed date lines falling in the year. -/
def year_commit_count (repo_logs : List (List String)) : Int → Nat :=
  fun y => ((dates_of_log repo_logs.flatten).filter (fun d => d.year = y)).length

/-- The `(files, insertions, deletions)` triples of `commit_stats`. -/
abbrev StatsTriple := Int × Int × Int

/-- The per-line test and contribution of the numstat loop (src/main.rs
lines 197-204): the line must split into exactly three whitespace fields,
the first two must differ from the binary marker `"-"` and parse as `i32`;
it then contributes `(1, added, deleted)`. -/
def stat_line_delta (line : String) : Option StatsTriple :=
  if (split_whitespace line).length = 3 ∧ (split_whitespace line).getD 0 "" ≠ "-"
      ∧ (split_whitespace line).getD 1 "" ≠ "-" then
    match parse_i32 ((split_whitespace line).getD 0 ""),
          parse_i32 ((split_whitespace line).getD 1 "") with
    | some added, some deleted => some (1, added, deleted)
    | _, _ => none
  else none

/-- One iteration of the numstat loop (src/main.rs lines 193-207): a line
that parses as a date moves the `current_date` cursor; otherwise, with a
cursor set, an accepted stat line accumulates into the map at the cursor
date; with no cursor, or a rejected line, nothing happens. -/
def step_stats (st : Option NaiveDate × (NaiveDate → StatsTriple)) (line : String) :
    Option NaiveDate × (NaiveDate → StatsTriple) :=
  match parse_date line with
  | some date => (some date, st.2)
  | none =>
    match st.1 with
    | none => st
    | some date =>
      match stat_line_delta line with
      | none => st
      | some delta => (st.1, fun d => if d = date then st.2 d + delta else st.2 d)

/-- The numstat loop over a whole log from a given cursor/map state. -/
def process_stats_log (st : Option NaiveDate × (NaiveDate → StatsTriple))
    (lines : List String) : Option NaiveDate × (NaiveDate → StatsTriple) :=
  lines.foldl step_stats st

/-- `commit_stats` over all repositories (src/main.rs lines 156, 177-208):
the cursor starts at `None` for each repository's log while the stats map is
shared across them. -/
def commit_stats (repo_logs : List (List String)) : NaiveDate → StatsTriple :=
  repo_logs.foldl (fun m log => (process_stats_log (none, m) log).2) (fun _ => (0, 0, 0))

/-- A date-delimited block of a numstat log: a header line (expected to parse
as a date) and the stat lines following it up to the next date line. -/
def block_lines (b : String × List String) : List String := b.1 :: b.2

/-- A block is well-formed when its header parses as a date and none of its
body lines do. -/
def valid_block (b : String × List String) : Prop :=
  (parse_date b.1).isSome ∧ ∀ l ∈ b.2, parse_date l = none

/-- The stats contribution of one block: the sum of its accepted lines'
deltas, placed at the block's header date. -/
def block_delta (b : String × List String) : NaiveDate → StatsTriple :=
  fun d =>
    match parse_date b.1 with
    | some date => if d = date then (b.2.filterMap stat_line_delta).sum else 0
    | none => 0

/-- The stats map produced by running the numstat loop, from the initial
state, over a log made of the given blocks in order. -/
def commit_stats_blocks (blocks : List (String × List String)) : NaiveDate → StatsTriple :=
  (process_stats_log (none, fun _ => (0, 0, 0)) ((blocks.map block_lines).flatten)).2

/-- The specification's acceptance test for a numstat line, written from the
claim's words for comparison with the code's `stat_line_delta`: exactly three
whitespace-separated fields whose first two parse as non-negative integers. -/
def spec_accepts (line : String) : Bool :=
  decide ((split_whitespace line).length = 3)
    && (match parse_i32 ((split_whitespace line).getD 0 "") with
        | some v => decide (0 ≤ v)
        | none => false)
    && (match parse_i32 ((split_whitespace line).getD 1 "") with
        | some v => decide (0 ≤ v)
        | none => false)

/-! Per-day layout of the rendering loop (src/main.rs lines 259-342). -/

/-- The vertical offset of a year row (src/main.rs line 260). -/
def year_offset (year_index : Nat) : Nat := year_index * (year_height + year_spacing)

/-- The horizontal offset of a month's grid (src/main.rs lines 276-277). -/
def month_x_offset (month : Nat) : Nat :=
  year_label_width + (month - 1) * (month_grid_width * (block_size + space_size) + month_spacing)

/-- The day blocks emitted for one year row (src/main.rs lines 275-342):
for each month 1-12 and each day up to `daysInMonth`, the block's column,
row and pixel position, guarded by the `row < month_grid_height &&
day <= days_in_month` check of line 315.  Each entry is
`(month, day, x, y)`. -/
def day_blocks (year_index : Nat) (year : Int) : List (Nat × Nat × Nat × Nat) :=
  (List.range' 1 12).flatMap fun month =>
    (List.range' 1 (daysInMonth year month)).filterMap fun day =>
      if (day - 1) / month_grid_width < month_grid_height ∧ day ≤ daysInMonth year month then
        some (month, day,
              month_x_offset month + ((day - 1) % month_grid_width) * (block_size + space_size),
              year_offset year_index + month_label_height +
                ((day - 1) / month_grid_width) * (block_size + space_size))
      else none

/-! The legend loop (src/main.rs lines 353-356 and 410-447). -/

/-- `summary_x` (src/main.rs line 354). -/
def summary_x : Nat := width - summary_width - space_size * 2

/-- `legend_x` (src/main.rs line 356). -/
def legend_x : Nat := summary_x + block_size * 20

/-- The legend rows drawn for one year row (src/main.rs lines 410-447):
for each bucket index `i` in 0-4 with a positive day count, when the colored
square fits horizontally and vertically, a square is drawn at
`(legend_x, year_offset + (i+7)*(block+space))`, and the text — when it fits
horizontally — at x `legend_x + block + 2*space` and y
`(i+7)*(block+space)` (the code passes that y without adding the year
offset).  Each entry is `(i, square position, optional text position)`. -/
def legend_rows (years_count : Nat) (year_index : Nat) (level_counts : List Nat) :
    List (Nat × (Nat × Nat) × Option (Nat × Nat)) :=
  (List.range 5).filterMap fun i =>
    if 0 < level_counts.getD i 0 ∧ legend_x + block_size ≤ width
        ∧ year_offset year_index + (i + 7) * (block_size + space_size) + block_size
            ≤ image_height years_count then
      some (i,
            (legend_x, year_offset year_index + (i + 7) * (block_size + space_size)),
            if legend_x + block_size + space_size * 2 + block_size * 15 ≤ width then
              some (legend_x + block_size + space_size * 2, (i + 7) * (block_size + space_size))
            else none)
    else none

/-! The command-line surface (src/main.rs lines 455-481). -/

/-- The argument scan of `main` (src/main.rs lines 464-476): walk the
arguments after the author; `--theme` followed by a value consumes both and
sets the theme (a trailing `--theme` with no value is pushed as a
repository); every other argument is pushed as a repository. -/
def parse_repos_theme : List String → String → List String × String
  | [], theme => ([], theme)
  | a :: rest, theme =>
    if a = "--theme" then
      match rest with
      | t :: rest2 => parse_repos_theme rest2 t
      | [] => (a :: (parse_repos_theme [] theme).1, (parse_repos_theme [] theme).2)
    else
      (a :: (parse_repos_theme rest theme).1, (parse_repos_theme rest theme).2)

/-- `main`'s argument handling (src/main.rs lines 456-478): with fewer than
3 arguments (program name included) it prints usage and exits with status 1
(`none` here); otherwise it proceeds (`some`) with the author, the scanned
repository list and theme. -/
def run_main (args : List String) : Option (String × List String × String) :=
  if args.length < 3 then none
  else
    match args with
    | _ :: author :: rest =>
      some (author, (parse_repos_theme rest "light").1, (parse_repos_theme rest "light").2)
    | _ => none

/-! Helper lemmas shared by the claim theorems. -/

/-- A field that parses as an `i32` cannot be the binary marker `"-"`. -/
theorem parse_i32_ne_dash {s : String} (h : (parse_i32 s).isSome) : s ≠ "-" := by
  intro hs
  subst hs
  exact absurd h (by decide)

/-- Every month length produced by `daysInMonth` is at most 31. -/
theorem daysInMonth_le_31 (y : Int) (m : Nat) : daysInMonth y m ≤ 31 := by
  unfold daysInMonth
  split <;> (try split) <;> omega

/-- On a line that does not parse as a date, the numstat step keeps the
cursor and accumulates the line's delta (when accepted) at the cursor
date. -/
theorem step_stats_nondate (d : NaiveDate) (m : NaiveDate → StatsTriple) (line : String)
    (hline : parse_date line = none) :
    step_stats (some d, m) line
      = (some d,
         match stat_line_delta line with
         | some delta => fun x => if x = d then m x + delta else m x
         | none => m) := by
  unfold step_stats
  rw [hline]
  cases hd : stat_line_delta line <;> rfl

/-- Folding the numstat step over non-date lines with the cursor at `date`
accumulates the sum of the accepted lines' deltas at `date`. -/
theorem process_body (date : NaiveDate) (m : NaiveDate → StatsTriple) (body : List String)
    (hb : ∀ l ∈ body, parse_date l = none) :
    process_stats_log (some date, m) body
      = (some date,
         fun d => if d = date then m d + (body.filterMap stat_line_delta).sum else m d) := by
  induction body generalizing m with
  | nil =>
    unfold process_stats_log
    simp only [List.foldl_nil, List.filterMap_nil, List.sum_nil, add_zero]
    have hm : (fun d => if d = date then m d else m d) = m := funext fun d => by split <;> rfl
    rw [hm]
  | cons l rest ih =>
    have hl : parse_date l = none := hb l (by simp)
    have hrest : ∀ x ∈ rest, parse_date x = none := fun x hx => hb x (by simp [hx])
    unfold process_stats_log at ih ⊢
    rw [List.foldl_cons]
    cases hd : stat_line_delta l with
    | none =>
      have hstep : step_stats (some date, m) l = (some date, m) := by
        unfold step_stats
        rw [hl, hd]
      rw [hstep, List.filterMap_cons, hd]
      exact ih m hrest
    | some delta =>
      have hstep : step_stats (some date, m) l
          = (some date, fun x => if x = date then m x + delta else m x) := by
        unfold step_stats
        rw [hl, hd]
      rw [hstep, List.filterMap_cons, hd,
        ih (fun x => if x = date then m x + delta else m x) hrest]
      simp only [List.sum_cons]
      refine congrArg (Prod.mk (some date)) (funext fun d => ?_)
      by_cases hdd : d = date
      · simp [hdd, add_assoc]
      · simp [hdd]

/-- Folding the numstat loop over one well-formed block, from any starting
state, sets the cursor to the block's date and adds the block's delta. -/
theorem process_block (st : Option NaiveDate × (NaiveDate → StatsTriple))
    (b : String × List String) (hvb : valid_block b) :
    process_stats_log st (block_lines b) = (parse_date b.1, st.2 + block_delta b) := by
  obtain ⟨hhdr, hbody⟩ := hvb
  obtain ⟨date, hdate⟩ := Option.isSome_iff_exists.mp hhdr
  have hstep : step_stats st b.1 = (some date, st.2) := by
    unfold step_stats
    rw [hdate]
  unfold block_lines process_stats_log
  rw [List.foldl_cons, hstep]
  have h2 := process_body date st.2 b.2 hbody
  unfold process_stats_log at h2
  rw [h2, hdate]
  refine congrArg (Prod.mk (some date)) (funext fun d => ?_)
  rw [Pi.add_apply]
  unfold block_delta
  rw [hdate]
  by_cases hdd : d = date
  · simp [hdd]
  · simp [hdd]

/-- Folding the numstat loop over a sequence of well-formed blocks adds the
pointwise sum of the blocks' deltas to the stats map. -/
theorem process_blocks (st : Option NaiveDate × (NaiveDate → StatsTriple))
    (blocks : List (String × List String)) (h : ∀ b ∈ blocks, valid_block b) :
    (process_stats_log st ((blocks.map block_lines).flatten)).2
      = st.2 + (blocks.map block_delta).sum := by
  induction blocks generalizing st with
  | nil =>
    unfold process_stats_log
    simp
  | cons b rest ih =>
    have hvb : valid_block b := h b (by simp)
    have hrest : ∀ x ∈ rest, valid_block x := fun x hx => h x (by simp [hx])
    simp only [List.map_cons, List.flatten_cons]
    unfold process_stats_log
    rw [List.foldl_append]
    have h1 := process_block st b hvb
    unfold process_stats_log at h1
    rw [h1]
    have h2 := ih (parse_date b.1, st.2 + block_delta b) hrest
    unfold process_stats_log at h2
    rw [h2, List.sum_cons, add_assoc]

/-- C1: the intensity classifier maps a commit count to six buckets with
boundaries 0, 1, 2-4, 5-9, 10-19 and 20+ (the spot checks of the claim
included), and `get_commit_color` selects the theme commit-colour at the
bucket's index with no rounding or interpolation. -/
theorem commit_color_buckets :
    (∀ (c : Int) (th : Theme),
        get_commit_color c th = th.commit_colors.getD (commitBucket c) (0, 0, 0, 0))
    ∧ commitBucket 0 = 0 ∧ commitBucket 1 = 1
    ∧ (∀ c : Int, 2 ≤ c → c ≤ 4 → commitBucket c = 2)
    ∧ (∀ c : Int, 5 ≤ c → c ≤ 9 → commitBucket c = 3)
    ∧ (∀ c : Int, 10 ≤ c → c ≤ 19 → commitBucket c = 4)
    ∧ (∀ c : Int, 20 ≤ c → commitBucket c = 5)
    ∧ commitBucket 4 = 2 ∧ commitBucket 5 = 3 ∧ commitBucket 9 = 3
    ∧ commitBucket 10 = 4 ∧ commitBucket 19 = 4 ∧ commitBucket 20 = 5
    ∧ commitBucket 1000 = 5 := by
  refine ⟨fun c th => ?_, by decide, by decide, ?_, ?_, ?_, ?_,
    by decide, by decide, by decide, by decide, by decide, by decide, by decide⟩
  · unfold get_commit_color commitBucket
    split_ifs <;> rfl
  · intro c h1 h2
    unfold commitBucket
    split_ifs <;> omega
  · intro c h1 h2
    unfold commitBucket
    split_ifs <;> omega
  · intro c h1 h2
    unfold commitBucket
    split_ifs <;> omega
  · intro c h
    unfold commitBucket
    split_ifs <;> omega

/-- Witness for C1 at concrete counts: one count from each bounded range and
one beyond 20, with the classifier applied through the theorem. -/
theorem commit_color_buckets_witness :
    get_commit_color 7 Theme.dark = Theme.dark.commit_colors.getD (commitBucket 7) (0, 0, 0, 0)
    ∧ commitBucket 3 = 2 ∧ commitBucket 7 = 3 ∧ commitBucket 12 = 4 ∧ commitBucket 25 = 5 :=
  ⟨commit_color_buckets.1 7 Theme.dark,
   commit_color_buckets.2.2.2.1 3 (by decide) (by decide),
   commit_color_buckets.2.2.2.2.1 7 (by decide) (by decide),
   commit_color_buckets.2.2.2.2.2.1 12 (by decide) (by decide),
   commit_color_buckets.2.2.2.2.2.2.1 25 (by decide)⟩

/-- C2 counterexample: the line `"-1 2 f.txt"` splits into three fields whose
first does not parse as a non-negative integer (it parses as `-1`), so the
claim says it contributes nothing; but the code accepts it — after the date
line `"2023-01-01"` sets the cursor, the stats at 2023-01-01 become
`(1, -1, 2)`, not `(0, 0, 0)`. -/
theorem stat_line_nonneg_counterexample :
    spec_accepts "-1 2 f.txt" = false
    ∧ parse_i32 "-1" = some (-1)
    ∧ (process_stats_log (none, fun _ => (0, 0, 0)) ["2023-01-01", "-1 2 f.txt"]).2
        ⟨2023, 1, 1⟩ = (1, -1, 2) := by
  refine ⟨by decide, by decide, by decide⟩

/-- C2 amended: while the cursor is set, a numstat line (one that does not
itself parse as a date) is accumulated — `files += 1`, `insertions += added`,
`deletions += deleted` at the cursor date — if and only if it splits into
exactly three whitespace-separated fields whose first two parse as signed
32-bit integers (which in particular excludes the binary marker `"-"`); the
parsed values are accumulated as they are, sign included. -/
theorem stat_line_accumulation (d : NaiveDate) (m : NaiveDate → StatsTriple) (line : String)
    (hline : parse_date line = none) :
    (step_stats (some d, m) line
      = (some d,
         match stat_line_delta line with
         | some delta => fun x => if x = d then m x + delta else m x
         | none => m))
    ∧ ((stat_line_delta line).isSome ↔
        (split_whitespace line).length = 3
          ∧ (parse_i32 ((split_whitespace line).getD 0 "")).isSome
          ∧ (parse_i32 ((split_whitespace line).getD 1 "")).isSome)
    ∧ (∀ a b : Int, (split_whitespace line).length = 3 →
        parse_i32 ((split_whitespace line).getD 0 "") = some a →
        parse_i32 ((split_whitespace line).getD 1 "") = some b →
        stat_line_delta line = some (1, a, b)) := by
  refine ⟨step_stats_nondate d m line hline, ⟨?_, ?_⟩, ?_⟩
  · intro h
    unfold stat_line_delta at h
    split_ifs at h with hc
    · refine ⟨hc.1, ?_, ?_⟩
      · cases h0 : parse_i32 ((split_whitespace line).getD 0 "") with
        | none =>
          rw [h0] at h
          simp at h
        | some a => rfl
      · cases h1 : parse_i32 ((split_whitespace line).getD 1 "") with
        | none =>
          rw [h1] at h
          cases h0 : parse_i32 ((split_whitespace line).getD 0 "") <;> rw [h0] at h <;> simp at h
        | some b => rfl
    · simp at h
  · rintro ⟨h3, h0, h1⟩
    obtain ⟨a, ha⟩ := Option.isSome_iff_exists.mp h0
    obtain ⟨b, hb⟩ := Option.isSome_iff_exists.mp h1
    unfold stat_line_delta
    rw [if_pos ⟨h3, parse_i32_ne_dash h0, parse_i32_ne_dash h1⟩, ha, hb]
    rfl
  · intro a b h3 ha hb
    have h0 : (parse_i32 ((split_whitespace line).getD 0 "")).isSome := by
      rw [ha]
      rfl
    have h1 : (parse_i32 ((split_whitespace line).getD 1 "")).isSome := by
      rw [hb]
      rfl
    unfold stat_line_delta
    rw [if_pos ⟨h3, parse_i32_ne_dash h0, parse_i32_ne_dash h1⟩, ha, hb]

/-- Witness for C2 at the concrete line `"3 2 foo.txt"` under cursor
2023-06-15: the line is not a date, splits into three fields parsing as 3
and 2, and contributes `(1, 3, 2)`. -/
theorem stat_line_accumulation_witness :
    stat_line_delta "3 2 foo.txt" = some (1, 3, 2) :=
  (stat_line_accumulation ⟨2023, 6, 15⟩ (fun _ => (0, 0, 0)) "3 2 foo.txt" (by decide)).2.2
    3 2 (by decide) (by decide) (by decide)

/-- C3: aggregation is order-independent — permuting the repositories, or
the date lines inside the date-only log, leaves the per-day commit counts
and the per-year totals unchanged, and permuting the date-delimited blocks
of the numstat log leaves the daily stats unchanged. -/
theorem aggregation_order_independent
    (repo_logs1 repo_logs2 : List (List String)) (hrepos : repo_logs1.Perm repo_logs2)
    (lines1 lines2 : List String) (hlines : lines1.Perm lines2)
    (blocks1 blocks2 : List (String × List String)) (hblocks : blocks1.Perm blocks2)
    (hvalid : ∀ b ∈ blocks1, valid_block b) :
    daily_index repo_logs1 = daily_index repo_logs2
    ∧ year_commit_count repo_logs1 = year_commit_count repo_logs2
    ∧ daily_index [lines1] = daily_index [lines2]
    ∧ year_commit_count [lines1] = year_commit_count [lines2]
    ∧ commit_stats_blocks blocks1 = commit_stats_blocks blocks2 := by
  have hflat : repo_logs1.flatten.Perm repo_logs2.flatten := hrepos.flatten
  have hone : (lines1 :: ([] : List (List String))).flatten.Perm
      (lines2 :: ([] : List (List String))).flatten := by
    simpa using hlines
  refine ⟨?_, ?_, ?_, ?_, ?_⟩
  · funext d
    exact (hflat.filterMap parse_date).count_eq d
  · funext y
    exact ((hflat.filterMap parse_date).filter (fun d => decide (d.year = y))).length_eq
  · funext d
    exact (hone.filterMap parse_date).count_eq d
  · funext y
    exact ((hone.filterMap parse_date).filter (fun d => decide (d.year = y))).length_eq
  · unfold commit_stats_blocks
    rw [process_blocks _ _ hvalid,
      process_blocks _ _ (fun b hb => hvalid b (hblocks.mem_iff.mpr hb))]
    exact congrArg _ ((hblocks.map block_delta).sum_eq)

/-- Witness for C3: two one-line repositories swapped, a date log permuted
with itself, and two numstat blocks swapped, with every hypothesis checked
by evaluation. -/
theorem aggregation_order_independent_witness :
    daily_index [["2023-01-01"], ["2023-01-02"]] = daily_index [["2023-01-02"], ["2023-01-01"]]
    ∧ commit_stats_blocks [("2023-01-01", ["1 2 a.txt"]), ("2023-01-02", ["3 4 b.txt"])]
        = commit_stats_blocks [("2023-01-02", ["3 4 b.txt"]), ("2023-01-01", ["1 2 a.txt"])] := by
  have h := aggregation_order_independent
    [["2023-01-01"], ["2023-01-02"]] [["2023-01-02"], ["2023-01-01"]] (by decide)
    ["2023-01-01", "2023-01-02"] ["2023-01-02", "2023-01-01"] (by decide)
    [("2023-01-01", ["1 2 a.txt"]), ("2023-01-02", ["3 4 b.txt"])]
    [("2023-01-02", ["3 4 b.txt"]), ("2023-01-01", ["1 2 a.txt"])] (by decide)
    (by
      intro b hb
      fin_cases hb <;> exact ⟨by decide, by decide⟩)
  exact ⟨h.1, h.2.2.2.2⟩

/-- C4: on a year-totals map with distinct keys (as a `HashMap` has), the
active-year selector returns exactly the years whose total is at least 5 —
so a year with total 4 is excluded and one with total 5 included — each year
at most once, sorted strictly descending. -/
theorem active_year_selector (m : List (Int × Int)) (hkeys : (m.map Prod.fst).Nodup) :
    (∀ y : Int, y ∈ active_years m ↔ ∃ c : Int, (y, c) ∈ m ∧ 5 ≤ c)
    ∧ (active_years m).Nodup
    ∧ (active_years m).Sorted (fun a b => a > b)
    ∧ (∀ y c : Int, (y, c) ∈ m → c = 4 → y ∉ active_years m)
    ∧ (∀ y c : Int, (y, c) ∈ m → c = 5 → y ∈ active_years m) := by
  have hperm : (active_years m).Perm
      ((m.filter (fun p => decide (min_commits ≤ p.2))).map Prod.fst) :=
    List.perm_insertionSort _ _
  have hmem : ∀ y : Int, y ∈ active_years m ↔ ∃ c : Int, (y, c) ∈ m ∧ 5 ≤ c := by
    intro y
    rw [hperm.mem_iff]
    simp only [List.mem_map, List.mem_filter, decide_eq_true_eq, min_commits]
    constructor
    · rintro ⟨⟨y2, c⟩, ⟨hm, hc⟩, rfl⟩
      exact ⟨c, hm, hc⟩
    · rintro ⟨c, hm, hc⟩
      exact ⟨(y, c), ⟨hm, hc⟩, rfl⟩
  have hnd : (active_years m).Nodup := by
    refine hperm.nodup_iff.mpr ?_
    exact ((List.filter_sublist m).map Prod.fst).nodup hkeys
  have hsorted : (active_years m).Sorted (fun a b : Int => a ≥ b) :=
    List.sorted_insertionSort _ _
  refine ⟨hmem, hnd, ?_, ?_, ?_⟩
  · exact (hsorted.and hnd).imp fun h => lt_of_le_of_ne h.1 h.2.symm
  · intro y c hm hc4 hy
    obtain ⟨c2, hm2, hc2⟩ := (hmem y).mp hy
    have heq : (y, c) = (y, c2) := List.inj_on_of_nodup_map hkeys hm hm2 rfl
    have : c = c2 := congrArg Prod.snd heq
    omega
  · intro y c hm hc5
    exact (hmem y).mpr ⟨c, hm, by omega⟩

/-- Witness for C4 on the concrete map `[(2021, 5), (2022, 6), (2020, 4)]`:
the result is strictly descending, 2021 (total 5) is in, 2020 (total 4) is
out. -/
theorem active_year_selector_witness :
    (active_years [((2021 : Int), (5 : Int)), (2022, 6), (2020, 4)]).Sorted (fun a b => a > b)
    ∧ (2021 : Int) ∈ active_years [((2021 : Int), (5 : Int)), (2022, 6), (2020, 4)]
    ∧ (2020 : Int) ∉ active_years [((2021 : Int), (5 : Int)), (2022, 6), (2020, 4)] :=
  ⟨(active_year_selector _ (by decide)).2.2.1,
   (active_year_selector _ (by decide)).2.2.2.2 2021 5 (by decide) rfl,
   (active_year_selector _ (by decide)).2.2.2.1 2020 4 (by decide) rfl⟩

/-- C5: the generated image has dimensions 1×1 exactly when no year clears
the activity threshold, and is strictly larger than 1×1 in both dimensions
whenever at least one year is active.  (The accompanying diagnostic print
and the successful exit are I/O outside this embedding; the function
returns normally in both cases.) -/
theorem placeholder_iff_no_active_years (m : List (Int × Int)) :
    (image_dims m = (1, 1) ↔ active_years m = [])
    ∧ (active_years m ≠ [] → 1 < (image_dims m).1 ∧ 1 < (image_dims m).2) := by
  constructor
  · constructor
    · intro h
      by_contra hne
      unfold image_dims at h
      rw [if_neg hne] at h
      have hw : width = 1 := congrArg Prod.fst h
      exact absurd hw (by decide)
    · intro h
      unfold image_dims
      rw [if_pos h]
  · intro h
    unfold image_dims
    rw [if_neg h]
    refine ⟨?_, ?_⟩
    · show 1 < width
      decide
    have hlen : 1 ≤ (active_years m).length := List.length_pos.mpr h
    show 1 < image_height (active_years m).length
    have hyh : year_height + year_spacing = 136 := by decide
    unfold image_height
    rw [hyh]
    omega

/-- Witness for C5: one year with exactly 5 commits is active, so the image
is strictly larger than 1×1. -/
theorem placeholder_iff_no_active_years_witness :
    1 < (image_dims [((2023 : Int), (5 : Int))]).1
    ∧ 1 < (image_dims [((2023 : Int), (5 : Int))]).2 :=
  (placeholder_iff_no_active_years [(2023, 5)]).2 (by decide)

/-- C6: the renderer gives February 29 day-slots exactly for Gregorian leap
years (divisible by 4 and either not by 100 or by 400) and 28 otherwise,
with the claim's spot checks. -/
theorem february_days :
    (∀ y : Int, daysInMonth y 2 = 29 ↔ ((4 : Int) ∣ y ∧ (¬(100 : Int) ∣ y ∨ (400 : Int) ∣ y)))
    ∧ (∀ y : Int, daysInMonth y 2 = 29 ∨ daysInMonth y 2 = 28)
    ∧ daysInMonth 2000 2 = 29 ∧ daysInMonth 2020 2 = 29 ∧ daysInMonth 2400 2 = 29
    ∧ daysInMonth 1900 2 = 28 ∧ daysInMonth 2021 2 = 28 ∧ daysInMonth 2100 2 = 28 := by
  refine ⟨fun y => ?_, fun y => ?_, by decide, by decide, by decide, by decide, by decide,
    by decide⟩
  · show (if y % 4 = 0 ∧ (y % 100 ≠ 0 ∨ y % 400 = 0) then 29 else 28) = 29
        ↔ (4 : Int) ∣ y ∧ (¬(100 : Int) ∣ y ∨ (400 : Int) ∣ y)
    simp only [Int.dvd_iff_emod_eq_zero]
    split_ifs with h
    · exact iff_of_true rfl h
    · exact iff_of_false (by omega) h
  · show (if y % 4 = 0 ∧ (y % 100 ≠ 0 ∨ y % 400 = 0) then 29 else 28) = 29
        ∨ (if y % 4 = 0 ∧ (y % 100 ≠ 0 ∨ y % 400 = 0) then 29 else 28) = 28
    split_ifs
    · exact Or.inl rfl
    · exact Or.inr rfl

/-- Witness for C6: 2024 is a leap year through the divisibility
characterization. -/
theorem february_days_witness : daysInMonth 2024 2 = 29 :=
  (february_days.1 2024).mpr (by decide)

/-- C7: the emitted day blocks for a year row are exactly the
(month, day) pairs with month 1-12 and day from 1 up to that month's day
count, each placed at column `(day-1) mod 4` and row `(day-1) div 4`, at
pixel x `month_x_offset + column * (block_size + space_size)` and y
`year_offset + month_label_height + row * (block_size + space_size)`; no
day beyond the month's day count is ever produced. -/
theorem day_block_positions (year_index : Nat) (year : Int) (m d x y : Nat) :
    (m, d, x, y) ∈ day_blocks year_index year
    ↔ 1 ≤ m ∧ m ≤ 12 ∧ 1 ≤ d ∧ d ≤ daysInMonth year m
      ∧ x = month_x_offset m + ((d - 1) % month_grid_width) * (block_size + space_size)
      ∧ y = year_offset year_index + month_label_height +
            ((d - 1) / month_grid_width) * (block_size + space_size) := by
  unfold day_blocks
  rw [List.mem_flatMap]
  constructor
  · rintro ⟨month, hmonth, hmem⟩
    rw [List.mem_range'_1] at hmonth
    rw [List.mem_filterMap] at hmem
    obtain ⟨day, hday, hsome⟩ := hmem
    rw [List.mem_range'_1] at hday
    split_ifs at hsome with hguard
    simp only [Option.some.injEq, Prod.mk.injEq] at hsome
    obtain ⟨hm, hd, hx, hy⟩ := hsome
    subst hm
    subst hd
    exact ⟨hmonth.1, by omega, hday.1, by omega, hx.symm, hy.symm⟩
  · rintro ⟨h1, h2, h3, h4, hx, hy⟩
    have hrow : (d - 1) / month_grid_width < month_grid_height := by
      have h31 := daysInMonth_le_31 year m
      unfold month_grid_width month_grid_height
      omega
    refine ⟨m, ?_, ?_⟩
    · rw [List.mem_range'_1]
      omega
    · rw [List.mem_filterMap]
      refine ⟨d, ?_, ?_⟩
      · rw [List.mem_range'_1]
        omega
      · rw [if_pos ⟨hrow, h4⟩, hx, hy]

/-- C8: the code draws the legend square of a row at the year's band
(`year_offset + (i+7)*(block+space)`) but passes the text's y coordinate
without the year offset, so for any year row after the first, the text is
not positioned below that year's summary lines.  Concretely, with two active
years and one single-commit day in the second year (index 1), the only
legend row places its square at y = 220 inside year 1's band but its text at
y = 84, above year 1's band start (136). -/
theorem legend_text_missing_year_offset :
    legend_rows 2 1 [1, 0, 0, 0, 0] = [(0, (902, 220), some (916, 84))]
    ∧ year_offset 1 = 136
    ∧ year_offset 1 + (0 + 7) * (block_size + space_size) = 220
    ∧ 84 < year_offset 1 := by
  refine ⟨by decide, by decide, by decide, by decide⟩

/-- C9 counterexample: the invocation `prog alice --theme dark` supplies only
one positional argument (the author; the repository list comes out empty),
yet the program does not print usage and exit — it proceeds, because the
usage check only counts raw arguments (4 here, at least 3) before the
`--theme` flag is recognised. -/
theorem usage_check_counterexample :
    run_main ["prog", "alice", "--theme", "dark"] = some ("alice", [], "dark") := by
  decide

/-- C9 amended: the program prints usage and exits with status 1 if and only
if fewer than 3 raw command-line arguments (program name included) are
given — i.e. fewer than 2 arguments follow the program name, with `--theme`
and its value counted like any other arguments. -/
theorem usage_exit_iff_few_args (args : List String) :
    run_main args = none ↔ args.length < 3 := by
  rcases args with _ | ⟨a, args2⟩
  · simp [run_main]
  rcases args2 with _ | ⟨b, rest⟩
  · simp [run_main]
  · simp only [run_main]
    split_ifs with h
    · exact iff_of_true rfl h
    · simp only [List.length_cons] at h ⊢
      constructor
      · intro hsome
        exact absurd hsome (by simp)
      · intro hlt
        omega

/-- Witness for C9 amended: a two-argument invocation exits with usage, a
three-argument one does not. -/
theorem usage_exit_iff_few_args_witness :
    run_main ["prog", "alice"] = none
    ∧ ¬run_main ["prog", "alice", "repo"] = none :=
  ⟨(usage_exit_iff_few_args ["prog", "alice"]).mpr (by decide),
   fun h => absurd ((usage_exit_iff_few_args ["prog", "alice", "repo"]).mp h) (by decide)⟩

/-- C10: every theme name whose (ASCII) lowercase form is neither `"dark"`
nor `"github"` — including `"light"`, the empty string, and arbitrary
unrecognized strings — silently selects the light theme; an invalid theme
value is never an error. -/
theorem unknown_theme_defaults_to_light :
    (∀ s : String, to_lowercase s ≠ "dark".toList → to_lowercase s ≠ "github".toList →
        selectTheme s = Theme.light)
    ∧ selectTheme "light" = Theme.light ∧ selectTheme "" = Theme.light
    ∧ selectTheme "LIGHT" = Theme.light ∧ selectTheme "Weird-Name" = Theme.light := by
  refine ⟨fun s h1 h2 => ?_, by decide, by decide, by decide, by decide⟩
  unfold selectTheme
  rw [if_neg h1, if_neg h2]

/-- Witness for C10 at a concrete unrecognized theme name. -/
theorem unknown_theme_defaults_to_light_witness :
    selectTheme "no-such-theme" = Theme.light :=
  unknown_theme_defaults_to_light.1 "no-such-theme" (by decide) (by decide)

end CommitsTilewall
